import Mathlib

/-!
Shallow embedding of the mask-overlay display backend in
`python/lsst/display/ginga/ginga.py`.

The mask branch of `DisplayImpl._mtv` (lines 188-236) builds an RGBA
overlay from a multi-bit-plane mask:

  * `maskRGB` is an all-zero `(h, w, 4)` `uint8` array, and `nSet` an
    all-zero `uint8` array of the same height and width;
  * for each `(maskPlaneName, maskPlaneNum)` in the plane dictionary,
    `isSet = maska & (1 << maskPlaneNum) != 0`; if no pixel is set the
    plane is skipped; otherwise the colour is resolved
    (`getMaskPlaneColor`, falling back to `next(colorGenerator)` when the
    result is falsy, and skipping the plane when `color.lower()` equals
    `"ignore"`), and the resolved 8-bit R, G, B values are assigned
    (numpy fancy assignment, an overwrite) at the pixels of `isSet`,
    while `nSet[isSet] += 1`;
  * the alpha channel is set to `255 * (1 - alpha)` everywhere and forced
    to 0 where `nSet == 0`; then `nSet[nSet == 0] = 1` and each colour
    channel is floor-divided (`//=`) in place by `nSet`.

We model a 2-D `uint8` array of height `h` and width `w` as a function
`Fin h → Fin w → ℕ` whose values are kept below 256 by an explicit
`% 256` at every store that narrows to `uint8`.  The colour-name world
external to this file (`getMaskPlaneColor`, matplotlib `to_rgb` scaled by
255, and `Display.maskColorGenerator`) is abstracted by the parameters
`colorFor`, `colorValue` and `colorGenerator`; the fallback generator is
a pure stream `ℕ → String` read at a cursor `genIdx` that advances by
one on each `next(...)` call.

The same file also embeds `DisplayImpl._setMaskTransparency` and
`DisplayImpl._getMaskTransparency` (lines 153-167), and the per-command
region dispatch of `DisplayImpl._dot` (lines 293-305).
-/

namespace DisplayGinga

/-- An 8-bit RGB colour, already resolved to the `255 * to_rgb(colour)`
integer components that the source stores into the `uint8` image. -/
structure Rgb where
  r : ℕ
  g : ℕ
  b : ℕ
deriving DecidableEq

/-- One RGBA output pixel of the composited overlay. -/
structure Rgba where
  r : ℕ
  g : ℕ
  b : ℕ
  a : ℕ
deriving DecidableEq

/-- The arrays live in the mask branch of `_mtv`: the input mask array
`maska`, the three colour channels of `maskRGB`, the contribution-count
array `nSet`, and the cursor of the fallback colour generator. -/
structure CompState (h w : ℕ) where
  mask : Fin h → Fin w → ℕ
  red : Fin h → Fin w → ℕ
  green : Fin h → Fin w → ℕ
  blue : Fin h → Fin w → ℕ
  nset : Fin h → Fin w → ℕ
  genIdx : ℕ

/-- `isSet = maska & (1 << maskPlaneNum) != 0` at one pixel. -/
def isSet {h w : ℕ} (s : CompState h w) (num : ℕ) (i : Fin h) (j : Fin w) : Bool :=
  s.mask i j &&& (1 <<< num) != 0

/-- The three fancy assignments `maskRGB[:, :, C][isSet] = 255 * c`
(an overwrite of each colour channel at the set pixels, narrowing to
`uint8`) together with `nSet[isSet] += 1` (a `uint8` increment). -/
def applyColor {h w : ℕ} (s : CompState h w) (num : ℕ) (c : Rgb) : CompState h w :=
  { s with
    red := fun i j => if isSet s num i j then c.r % 256 else s.red i j
    green := fun i j => if isSet s num i j then c.g % 256 else s.green i j
    blue := fun i j => if isSet s num i j then c.b % 256 else s.blue i j
    nset := fun i j => if isSet s num i j then (s.nset i j + 1) % 256 else s.nset i j }

/-- Lower-casing in the manner of the Python `str.lower`, mapped over the
characters of the string (the colour names at issue are ASCII). -/
def lowerStr (s : String) : String := ⟨s.data.map Char.toLower⟩

/-- One iteration of the loop `for maskPlaneName, maskPlaneNum in
mask.getMaskPlaneDict().items()`.  A plane with no set pixel is skipped
before its colour is resolved; a falsy colour (`None` or the empty
string) draws the next colour from the fallback generator; a colour
whose lower-casing is `"ignore"` is skipped; any other colour is used as
is. -/
def planeStep {h w : ℕ} (colorFor : String → Option String) (colorValue : String → Rgb)
    (colorGenerator : ℕ → String) (s : CompState h w) (plane : String × ℕ) : CompState h w :=
  if ∀ i j, isSet s plane.2 i j = false then s
  else
    match colorFor plane.1 with
    | Option.none =>
        applyColor { s with genIdx := s.genIdx + 1 } plane.2
          (colorValue (colorGenerator s.genIdx))
    | Option.some c =>
        if c = "" then
          applyColor { s with genIdx := s.genIdx + 1 } plane.2
            (colorValue (colorGenerator s.genIdx))
        else if lowerStr c = "ignore" then s
        else applyColor s plane.2 (colorValue c)

/-- The freshly allocated arrays at entry, `np.zeros((h, w, 4))` and
`np.zeros_like(maska)`, together with an unconsumed colour generator. -/
def initState {h w : ℕ} (mask : Fin h → Fin w → ℕ) : CompState h w :=
  { mask := mask
    red := fun _ _ => 0
    green := fun _ _ => 0
    blue := fun _ _ => 0
    nset := fun _ _ => 0
    genIdx := 0 }

/-- The whole plane loop, run over the items of the plane dictionary in
iteration order. -/
def runPlanes {h w : ℕ} (colorFor : String → Option String) (colorValue : String → Rgb)
    (colorGenerator : ℕ → String) (mask : Fin h → Fin w → ℕ)
    (planes : List (String × ℕ)) : CompState h w :=
  List.foldl (planeStep colorFor colorValue colorGenerator) (initState mask) planes

/-- The `uint8` value stored by `maskRGB[:, :, A] = 255 * (1 - alpha)`:
the float is truncated toward zero on narrowing to `uint8`, which for
the non-negative values arising from `alpha ∈ [0, 1]` is the floor. -/
def alphaVal (alpha : ℚ) : ℕ := (255 * (1 - alpha)).floor.toNat % 256

/-- `nSet[nSet == 0] = 1  # avoid division by 0`. -/
def divisorOf (n : ℕ) : ℕ := if n = 0 then 1 else n

/-- The epilogue of the mask branch at one pixel: set the alpha channel
to `255 * (1 - alpha)`, force it to 0 where `nSet == 0`, substitute the
divisor 1 for zero counts, and floor-divide each colour channel by the
count. -/
def finalize {h w : ℕ} (alpha : ℚ) (s : CompState h w) (i : Fin h) (j : Fin w) : Rgba :=
  { r := s.red i j / divisorOf (s.nset i j)
    g := s.green i j / divisorOf (s.nset i j)
    b := s.blue i j / divisorOf (s.nset i j)
    a := if s.nset i j = 0 then 0 else alphaVal alpha }

/-- The value of the composited RGBA overlay built by `DisplayImpl._mtv`
at one pixel. -/
def mtvMask {h w : ℕ} (colorFor : String → Option String) (colorValue : String → Rgb)
    (colorGenerator : ℕ → String) (alpha : ℚ) (mask : Fin h → Fin w → ℕ)
    (planes : List (String × ℕ)) (i : Fin h) (j : Fin w) : Rgba :=
  finalize alpha (runPlanes colorFor colorValue colorGenerator mask planes) i j

/-! ### Mask transparency accessors

When a maskplane is named, `DisplayImpl._setMaskTransparency` evaluates
`"display_ginga is not yet able to set transparency for individual
maskplanes" % maskplane` as the argument of its warning print — but the
format string contains no conversion specifier, so the `%` operator
raises `TypeError: not all arguments converted during string formatting`
before anything is printed; the exception propagates and the stored
transparency is untouched only because the assignment is never reached.
With maskplane `None` it stores `0.01 * transparency` and returns
normally.  `DisplayImpl._getMaskTransparency` returns the stored value
unconditionally. -/

/-- The per-display state touched by the transparency accessors. -/
structure GingaState where
  maskTransparency : ℚ
deriving DecidableEq

/-- `self._maskTransparency = 0.8` from `DisplayImpl.__init__`. -/
def initDisplay : GingaState := { maskTransparency := 0.8 }

/-- An uncaught Python exception escaping a call. -/
inductive PyError where
  | typeError
deriving DecidableEq

/-- `DisplayImpl._setMaskTransparency`: on a normal return the result
carries the new state and whether the per-plane warning was printed; a
named maskplane instead raises `TypeError` from the specifier-free
format string (ginga.py line 158) before the warning is printed, leaving
the state as it was. -/
def setMaskTransparency (s : GingaState) (transparency : ℚ) (maskplane : Option String) :
    Except PyError (GingaState × Bool) :=
  match maskplane with
  | Option.some _ => Except.error PyError.typeError
  | Option.none => Except.ok ({ maskTransparency := 0.01 * transparency }, false)

/-- `DisplayImpl._getMaskTransparency`. -/
def getMaskTransparency (s : GingaState) (maskplane : Option String) : ℚ :=
  s.maskTransparency

/-! ### The region-command dispatch of `DisplayImpl._dot`

For a symbol that is neither a `BaseCore` ellipse nor `"o"`, `_dot`
iterates over the region strings produced by `ds9Regions.dot` and, for
each one, splits off a trailing `#` comment, whitespace-splits the rest,
and dispatches on the first word: `"line"` becomes a `Line` draw call
with every coordinate shifted by -1, `"text"` becomes a `Text` draw call
at the first two coordinates shifted by -1, and anything else raises
`RuntimeError(ds9Cmd)`.  Python `float` parsing is abstracted by the
`toFloat` parameter. -/

/-- The primitive draw calls that the region dispatch can emit. -/
inductive GingaDraw where
  | line (coords : List ℚ) (color : String)
  | text (x y : ℚ) (label : String) (color : String)
deriving DecidableEq

/-- The fatal outcomes of the region dispatch: `RuntimeError(ds9Cmd)` for
an unknown command word, an index error when the command is empty, and a
value error when `float` parsing or tuple unpacking fails. -/
inductive DotError where
  | runtimeError (cmd : String)
  | indexError
  | valueError
deriving DecidableEq

/-- `tmp = ds9Cmd.split("#"); tmp.pop(0)`: the characters before the
first `#`. -/
def firstHashSegment (s : String) : List Char :=
  s.data.takeWhile (fun ch => ch ≠ '#')

/-- Split a character list at whitespace; empty chunks are kept and
dropped later, mirroring Python `str.split()` with no argument. -/
def splitWsAux : List Char → List (List Char)
  | [] => [[]]
  | ch :: cs =>
    let rest := splitWsAux cs
    if ch.isWhitespace then [] :: rest
    else (ch :: rest.headD []) :: rest.tail

/-- Python `str.split()` with no argument: whitespace-separated words,
empty words dropped. -/
def pyWords (cs : List Char) : List String :=
  ((splitWsAux cs).filter (fun word => word ≠ [])).map (fun word => ⟨word⟩)

/-- The processing of one `ds9Cmd` region string in `DisplayImpl._dot`:
`cmd, args = cmd[0], cmd[1:]`, then dispatch on `cmd`. -/
def processDs9Cmd (toFloat : String → Option ℚ) (symb ctype : String) (ds9Cmd : String) :
    Except DotError GingaDraw :=
  match pyWords (firstHashSegment ds9Cmd) with
  | [] => Except.error DotError.indexError
  | cmd :: args =>
    if cmd = "line" then
      match args.mapM toFloat with
      | Option.some ps => Except.ok (GingaDraw.line (ps.map (fun p => p - 1)) ctype)
      | Option.none => Except.error DotError.valueError
    else if cmd = "text" then
      match (args.take 2).mapM toFloat with
      | Option.some [x, y] => Except.ok (GingaDraw.text (x - 1) (y - 1) symb ctype)
      | _ => Except.error DotError.valueError
    else Except.error (DotError.runtimeError ds9Cmd)

/-! ### Concrete fixtures used by the closed evaluation theorems -/

/-- Plane colour configuration: plane `A` is red, every other plane
green. -/
def cfAB : String → Option String := fun nm =>
  if nm = "A" then Option.some "red" else Option.some "green"

/-- Plane colour configuration: plane `INTRP` is marked `ignore`, every
other plane has no configured colour. -/
def cfIgn : String → Option String := fun nm =>
  if nm = "INTRP" then Option.some "ignore" else Option.none

/-- Plane colour configuration: no plane has a configured colour. -/
def cfNone : String → Option String := fun _ => Option.none

/-- Resolved 8-bit colour values: red is `(255, 0, 0)`, everything else
green `(0, 255, 0)`. -/
def cvRG : String → Rgb := fun c =>
  if c = "red" then ⟨255, 0, 0⟩ else ⟨0, 255, 0⟩

/-- A fallback colour generator that always yields `"blue"`. -/
def cgBlue : ℕ → String := fun _ => "blue"

/-- A 1×1 mask with bit planes 0 and 1 both set. -/
def maskBoth : Fin 1 → Fin 1 → ℕ := fun _ _ => 3

/-- A 1×1 mask with only bit plane 0 set. -/
def maskOne : Fin 1 → Fin 1 → ℕ := fun _ _ => 1

/-- A 1×1 mask with no bits set. -/
def maskZero : Fin 1 → Fin 1 → ℕ := fun _ _ => 0

/-! ### Helper lemmas -/

theorem isSet_false_iff {h w : ℕ} (s : CompState h w) (num : ℕ) (i : Fin h) (j : Fin w) :
    isSet s num i j = false ↔ s.mask i j &&& (1 <<< num) = 0 := by
  simp [isSet]

theorem planeStep_of_empty {h w : ℕ} (cf : String → Option String) (cv : String → Rgb)
    (cg : ℕ → String) (s : CompState h w) (p : String × ℕ)
    (hempty : ∀ i j, isSet s p.2 i j = false) :
    planeStep cf cv cg s p = s := by
  unfold planeStep
  rw [if_pos hempty]

theorem planeStep_mask {h w : ℕ} (cf : String → Option String) (cv : String → Rgb)
    (cg : ℕ → String) (s : CompState h w) (p : String × ℕ) :
    (planeStep cf cv cg s p).mask = s.mask := by
  unfold planeStep applyColor
  repeat' split
  all_goals rfl

theorem foldl_planeStep_mask {h w : ℕ} (cf : String → Option String) (cv : String → Rgb)
    (cg : ℕ → String) (planes : List (String × ℕ)) : ∀ (s : CompState h w),
    (List.foldl (planeStep cf cv cg) s planes).mask = s.mask := by
  induction planes with
  | nil => intro s; rfl
  | cons p rest ih => intro s; rw [List.foldl_cons, ih, planeStep_mask]

/-! ### Claim theorems -/

/-- C9: the compositor never writes to the input mask array: after the
whole plane loop the mask component of the state is exactly the input
mask, and indeed no single loop iteration changes it; all writes go to
the freshly allocated colour, count and generator components. -/
theorem mtv_mask_unmutated (cf : String → Option String) (cv : String → Rgb)
    (cg : ℕ → String) {h w : ℕ} (mask : Fin h → Fin w → ℕ) (planes : List (String × ℕ)) :
    (runPlanes cf cv cg mask planes).mask = mask ∧
    ∀ (s : CompState h w) (p : String × ℕ), (planeStep cf cv cg s p).mask = s.mask :=
  ⟨foldl_planeStep_mask cf cv cg planes (initState mask), planeStep_mask cf cv cg⟩

/-- C5: a plane none of whose bits are set anywhere in the mask is
skipped before its colour is resolved: the whole compositor state, the
fallback-generator cursor included, is left unchanged, whatever colour
configuration the plane has. -/
theorem mtv_empty_plane_skipped (cf : String → Option String) (cv : String → Rgb)
    (cg : ℕ → String) {h w : ℕ} (s : CompState h w) (p : String × ℕ)
    (hempty : ∀ i j, s.mask i j &&& (1 <<< p.2) = 0) :
    planeStep cf cv cg s p = s :=
  planeStep_of_empty cf cv cg s p (fun i j => (isSet_false_iff s p.2 i j).mpr (hempty i j))

/-- Witness for C5 at a concrete input: on a 1×1 zero mask, a plane with
no configured colour is skipped and the state is unchanged. -/
theorem mtv_empty_plane_skipped_witness :
    planeStep cfNone cvRG cgBlue (initState maskZero) ("A", 0) = initState maskZero :=
  mtv_empty_plane_skipped cfNone cvRG cgBlue (initState maskZero) ("A", 0) (by decide)

/-- C6: a plane whose configured colour lower-cases to `"ignore"` is
skipped entirely — no pixel contribution and no fallback colour
consumed, so the loop behaves as if the plane were absent; a plane with
no configured colour draws the next fallback colour and advances the
generator cursor; a plane with an ordinary configured colour uses that
colour and leaves the cursor alone. -/
theorem mtv_ignore_plane_skipped (cf : String → Option String) (cv : String → Rgb)
    (cg : ℕ → String) {h w : ℕ} (s : CompState h w) (p : String × ℕ)
    (rest : List (String × ℕ)) :
    (∀ c, cf p.1 = Option.some c → c ≠ "" → lowerStr c = "ignore" →
        planeStep cf cv cg s p = s ∧
        List.foldl (planeStep cf cv cg) s (p :: rest) =
          List.foldl (planeStep cf cv cg) s rest) ∧
    (cf p.1 = Option.none → ¬ (∀ i j, isSet s p.2 i j = false) →
        planeStep cf cv cg s p =
          applyColor { s with genIdx := s.genIdx + 1 } p.2 (cv (cg s.genIdx))) ∧
    (∀ c, cf p.1 = Option.some c → c ≠ "" → lowerStr c ≠ "ignore" →
        ¬ (∀ i j, isSet s p.2 i j = false) →
        planeStep cf cv cg s p = applyColor s p.2 (cv c)) := by
  refine ⟨?_, ?_, ?_⟩
  · intro c hc hne hig
    have hstep : planeStep cf cv cg s p = s := by
      unfold planeStep
      split
      · rfl
      · simp only [hc, if_neg hne, if_pos hig]
    exact ⟨hstep, by rw [List.foldl_cons, hstep]⟩
  · intro hc hfull
    unfold planeStep
    rw [if_neg hfull]
    simp only [hc]
  · intro c hc hne hig hfull
    unfold planeStep
    rw [if_neg hfull]
    simp only [hc, if_neg hne, if_neg hig]

/-- Witness for C6 at a concrete input: on a 1×1 mask with bit 0 set, a
plane explicitly coloured `"ignore"` leaves the state unchanged. -/
theorem mtv_ignore_plane_skipped_witness :
    planeStep cfIgn cvRG cgBlue (initState maskOne) ("INTRP", 0) = initState maskOne :=
  ((mtv_ignore_plane_skipped cfIgn cvRG cgBlue (initState maskOne) ("INTRP", 0) []).1
    "ignore" (by decide) (by decide) (by decide)).1

theorem planeStep_nset_of_mask_zero {h w : ℕ} (cf : String → Option String) (cv : String → Rgb)
    (cg : ℕ → String) (s : CompState h w) (p : String × ℕ) (i : Fin h) (j : Fin w)
    (hm : s.mask i j = 0) :
    (planeStep cf cv cg s p).nset i j = s.nset i j := by
  unfold planeStep applyColor
  repeat' split
  all_goals simp [isSet, hm]

theorem foldl_nset_of_mask_zero {h w : ℕ} (cf : String → Option String) (cv : String → Rgb)
    (cg : ℕ → String) (i : Fin h) (j : Fin w) (planes : List (String × ℕ)) :
    ∀ (s : CompState h w), s.mask i j = 0 →
    (List.foldl (planeStep cf cv cg) s planes).nset i j = s.nset i j := by
  induction planes with
  | nil => intro s _; rfl
  | cons p rest ih =>
    intro s hm
    rw [List.foldl_cons]
    have hm' : (planeStep cf cv cg s p).mask i j = s.mask i j := by
      rw [planeStep_mask]
    rw [ih (planeStep cf cv cg s p) (hm' ▸ hm), planeStep_nset_of_mask_zero cf cv cg s p i j hm]

/-- C3: after the plane loop the alpha channel is `255 * (1 - alpha)` at
every pixel with a non-zero contribution count and 0 at every pixel with
contribution count 0; in particular every pixel whose mask value is 0 —
so the whole image when no bit is set anywhere — gets alpha 0. -/
theorem mtv_alpha_channel (cf : String → Option String) (cv : String → Rgb)
    (cg : ℕ → String) (alpha : ℚ) {h w : ℕ} (mask : Fin h → Fin w → ℕ)
    (planes : List (String × ℕ)) :
    (∀ i j, (runPlanes cf cv cg mask planes).nset i j ≠ 0 →
        (mtvMask cf cv cg alpha mask planes i j).a = alphaVal alpha) ∧
    (∀ i j, (runPlanes cf cv cg mask planes).nset i j = 0 →
        (mtvMask cf cv cg alpha mask planes i j).a = 0) ∧
    (∀ i j, mask i j = 0 → (mtvMask cf cv cg alpha mask planes i j).a = 0) := by
  refine ⟨?_, ?_, ?_⟩
  · intro i j hn
    show (if (runPlanes cf cv cg mask planes).nset i j = 0 then 0 else alphaVal alpha) =
      alphaVal alpha
    exact if_neg hn
  · intro i j hn
    show (if (runPlanes cf cv cg mask planes).nset i j = 0 then 0 else alphaVal alpha) = 0
    exact if_pos hn
  · intro i j hm
    have hn : (runPlanes cf cv cg mask planes).nset i j = 0 :=
      foldl_nset_of_mask_zero cf cv cg i j planes (initState mask) hm
    show (if (runPlanes cf cv cg mask planes).nset i j = 0 then 0 else alphaVal alpha) = 0
    exact if_pos hn

/-- Witness for C3 at a concrete input: a 1×1 mask with no bit set
composites to an alpha of 0. -/
theorem mtv_alpha_channel_witness :
    (mtvMask cfAB cvRG cgBlue (4/5) maskZero [("A", 0)] 0 0).a = 0 :=
  (mtv_alpha_channel cfAB cvRG cgBlue (4/5) maskZero [("A", 0)]).2.2 0 0 (by decide)

theorem applyColor_nset_le {h w : ℕ} (s : CompState h w) (num : ℕ) (c : Rgb) (k : ℕ)
    (hk : k ≤ 254) (hb : ∀ i j, s.nset i j ≤ k) :
    ∀ i j, (applyColor s num c).nset i j ≤ k + 1 := by
  intro i j
  show (if isSet s num i j then (s.nset i j + 1) % 256 else s.nset i j) ≤ k + 1
  split
  · have h1 : s.nset i j + 1 < 256 := by have := hb i j; omega
    rw [Nat.mod_eq_of_lt h1]
    exact Nat.succ_le_succ (hb i j)
  · exact Nat.le_succ_of_le (hb i j)

theorem applyColor_zero_inv {h w : ℕ} (s : CompState h w) (num : ℕ) (c : Rgb) (k : ℕ)
    (hk : k ≤ 254) (hb : ∀ i j, s.nset i j ≤ k)
    (hz : ∀ i j, s.nset i j = 0 → s.red i j = 0 ∧ s.green i j = 0 ∧ s.blue i j = 0) :
    ∀ i j, (applyColor s num c).nset i j = 0 →
      (applyColor s num c).red i j = 0 ∧ (applyColor s num c).green i j = 0 ∧
      (applyColor s num c).blue i j = 0 := by
  intro i j hn
  by_cases hs : isSet s num i j
  · exfalso
    have hlt : s.nset i j + 1 < 256 := by have := hb i j; omega
    have : (applyColor s num c).nset i j = s.nset i j + 1 := by
      show (if isSet s num i j then (s.nset i j + 1) % 256 else s.nset i j) = s.nset i j + 1
      rw [if_pos hs, Nat.mod_eq_of_lt hlt]
    omega
  · have hn' : s.nset i j = 0 := by
      have : (applyColor s num c).nset i j = s.nset i j := by
        show (if isSet s num i j then (s.nset i j + 1) % 256 else s.nset i j) = s.nset i j
        rw [if_neg hs]
      omega
    refine ⟨?_, ?_, ?_⟩
    · show (if isSet s num i j then c.r % 256 else s.red i j) = 0
      rw [if_neg hs]; exact (hz i j hn').1
    · show (if isSet s num i j then c.g % 256 else s.green i j) = 0
      rw [if_neg hs]; exact (hz i j hn').2.1
    · show (if isSet s num i j then c.b % 256 else s.blue i j) = 0
      rw [if_neg hs]; exact (hz i j hn').2.2

theorem planeStep_eq_or {h w : ℕ} (cf : String → Option String) (cv : String → Rgb)
    (cg : ℕ → String) (s : CompState h w) (p : String × ℕ) :
    planeStep cf cv cg s p = s ∨
    ∃ gi c, planeStep cf cv cg s p = applyColor { s with genIdx := gi } p.2 c := by
  unfold planeStep
  split
  · exact Or.inl rfl
  · split
    · exact Or.inr ⟨s.genIdx + 1, _, rfl⟩
    · split
      · exact Or.inr ⟨s.genIdx + 1, _, rfl⟩
      · split
        · exact Or.inl rfl
        · exact Or.inr ⟨s.genIdx, _, rfl⟩

theorem planeStep_inv {h w : ℕ} (cf : String → Option String) (cv : String → Rgb)
    (cg : ℕ → String) (s : CompState h w) (p : String × ℕ) (k : ℕ) (hk : k ≤ 254)
    (hb : ∀ i j, s.nset i j ≤ k)
    (hz : ∀ i j, s.nset i j = 0 → s.red i j = 0 ∧ s.green i j = 0 ∧ s.blue i j = 0) :
    (∀ i j, (planeStep cf cv cg s p).nset i j ≤ k + 1) ∧
    (∀ i j, (planeStep cf cv cg s p).nset i j = 0 →
        (planeStep cf cv cg s p).red i j = 0 ∧ (planeStep cf cv cg s p).green i j = 0 ∧
        (planeStep cf cv cg s p).blue i j = 0) := by
  rcases planeStep_eq_or cf cv cg s p with heq | ⟨gi, c, heq⟩
  · rw [heq]
    exact ⟨fun i j => Nat.le_succ_of_le (hb i j), hz⟩
  · rw [heq]
    exact ⟨applyColor_nset_le { s with genIdx := gi } p.2 c k hk hb,
           applyColor_zero_inv { s with genIdx := gi } p.2 c k hk hb hz⟩

theorem foldl_planeStep_inv {h w : ℕ} (cf : String → Option String) (cv : String → Rgb)
    (cg : ℕ → String) :
    ∀ (planes : List (String × ℕ)) (s : CompState h w) (k : ℕ),
    k + planes.length ≤ 255 →
    (∀ i j, s.nset i j ≤ k) →
    (∀ i j, s.nset i j = 0 → s.red i j = 0 ∧ s.green i j = 0 ∧ s.blue i j = 0) →
    (∀ i j, (List.foldl (planeStep cf cv cg) s planes).nset i j ≤ k + planes.length) ∧
    (∀ i j, (List.foldl (planeStep cf cv cg) s planes).nset i j = 0 →
        (List.foldl (planeStep cf cv cg) s planes).red i j = 0 ∧
        (List.foldl (planeStep cf cv cg) s planes).green i j = 0 ∧
        (List.foldl (planeStep cf cv cg) s planes).blue i j = 0) := by
  intro planes
  induction planes with
  | nil =>
    intro s k _ hb hz
    exact ⟨fun i j => by simpa using hb i j, hz⟩
  | cons p rest ih =>
    intro s k hlen hb hz
    have hk : k ≤ 254 := by simp [List.length_cons] at hlen; omega
    have step := planeStep_inv cf cv cg s p k hk hb hz
    have main := ih (planeStep cf cv cg s p) (k + 1)
      (by simp [List.length_cons] at hlen ⊢; omega) step.1 step.2
    rw [List.foldl_cons]
    refine ⟨fun i j => ?_, main.2⟩
    have := main.1 i j
    simp [List.length_cons] at this ⊢
    omega

/-- C7: normalization is division-by-zero safe: a pixel with
contribution count 0 gets the substituted divisor 1 and its colour
channels, all still 0, stay 0 (so the output pixel is fully transparent
black); a pixel with a non-zero count has each colour channel
floor-divided by the count.  The plane list is assumed shorter than 256
entries so that the `uint8` count cannot wrap around, which holds for
any real mask plane dictionary. -/
theorem mtv_normalization_safe (cf : String → Option String) (cv : String → Rgb)
    (cg : ℕ → String) (alpha : ℚ) {h w : ℕ} (mask : Fin h → Fin w → ℕ)
    (planes : List (String × ℕ)) (hlen : planes.length ≤ 255) (i : Fin h) (j : Fin w) :
    ((runPlanes cf cv cg mask planes).nset i j = 0 →
        divisorOf ((runPlanes cf cv cg mask planes).nset i j) = 1 ∧
        mtvMask cf cv cg alpha mask planes i j = ⟨0, 0, 0, 0⟩) ∧
    ((runPlanes cf cv cg mask planes).nset i j ≠ 0 →
        mtvMask cf cv cg alpha mask planes i j =
          ⟨(runPlanes cf cv cg mask planes).red i j / (runPlanes cf cv cg mask planes).nset i j,
           (runPlanes cf cv cg mask planes).green i j /
             (runPlanes cf cv cg mask planes).nset i j,
           (runPlanes cf cv cg mask planes).blue i j /
             (runPlanes cf cv cg mask planes).nset i j,
           alphaVal alpha⟩) := by
  have inv := foldl_planeStep_inv cf cv cg planes (initState mask) 0
    (by simpa using hlen) (fun _ _ => Nat.le_refl 0) (fun _ _ _ => ⟨rfl, rfl, rfl⟩)
  constructor
  · intro hn
    have hn2 : (List.foldl (planeStep cf cv cg) (initState mask) planes).nset i j = 0 := hn
    have hz := inv.2 i j hn2
    refine ⟨by rw [hn]; rfl, ?_⟩
    unfold mtvMask finalize runPlanes
    rw [hn2, hz.1, hz.2.1, hz.2.2]
    rfl
  · intro hn
    have hn2 : (List.foldl (planeStep cf cv cg) (initState mask) planes).nset i j ≠ 0 := hn
    unfold mtvMask finalize runPlanes
    have hd : divisorOf ((List.foldl (planeStep cf cv cg) (initState mask) planes).nset i j) =
        (List.foldl (planeStep cf cv cg) (initState mask) planes).nset i j := by
      unfold divisorOf
      rw [if_neg hn2]
    rw [hd, if_neg hn2]

/-- Witness for C7 at a concrete input: on a 1×1 mask whose single pixel
has one contributing plane, the output is the accumulated channels
divided by the count, with the global alpha. -/
theorem mtv_normalization_safe_witness :
    mtvMask cfAB cvRG cgBlue (4/5) maskOne [("A", 0)] 0 0 =
      ⟨(runPlanes cfAB cvRG cgBlue maskOne [("A", 0)]).red 0 0 /
          (runPlanes cfAB cvRG cgBlue maskOne [("A", 0)]).nset 0 0,
       (runPlanes cfAB cvRG cgBlue maskOne [("A", 0)]).green 0 0 /
          (runPlanes cfAB cvRG cgBlue maskOne [("A", 0)]).nset 0 0,
       (runPlanes cfAB cvRG cgBlue maskOne [("A", 0)]).blue 0 0 /
          (runPlanes cfAB cvRG cgBlue maskOne [("A", 0)]).nset 0 0,
       alphaVal (4/5)⟩ :=
  (mtv_normalization_safe cfAB cvRG cgBlue (4/5) maskOne [("A", 0)] (by decide) 0 0).2
    (by decide)

theorem foldl_skip_of_empty {h w : ℕ} (cf : String → Option String) (cv : String → Rgb)
    (cg : ℕ → String) :
    ∀ (l : List (String × ℕ)) (s : CompState h w),
    (∀ q ∈ l, ∀ i j, s.mask i j &&& (1 <<< q.2) = 0) →
    List.foldl (planeStep cf cv cg) s l = s := by
  intro l
  induction l with
  | nil => intro s _; rfl
  | cons q rest ih =>
    intro s hemp
    rw [List.foldl_cons]
    have hq : planeStep cf cv cg s q = s :=
      planeStep_of_empty cf cv cg s q
        (fun i j => (isSet_false_iff s q.2 i j).mpr (hemp q (List.mem_cons_self q rest) i j))
    rw [hq]
    exact ih s (fun q hmem i j => hemp q (List.mem_cons_of_mem _ hmem) i j)

/-- C4: when one plane covers every pixel, every other plane in the
dictionary has no bit set anywhere, and the covering plane resolves to a
colour `col` — either an ordinary configured colour, or the first
fallback colour when its configuration is absent or the empty string —
the output RGB is exactly that resolved 8-bit colour at every pixel and
the alpha channel is `255 * (1 - alpha)` everywhere. -/
theorem mtv_single_covering_plane (cf : String → Option String) (cv : String → Rgb)
    (cg : ℕ → String) (alpha : ℚ) {h w : ℕ} (mask : Fin h → Fin w → ℕ)
    (l1 l2 : List (String × ℕ)) (p : String × ℕ) (col : Rgb)
    (hcov : ∀ i j, mask i j &&& (1 <<< p.2) ≠ 0)
    (h1 : ∀ q ∈ l1, ∀ i j, mask i j &&& (1 <<< q.2) = 0)
    (h2 : ∀ q ∈ l2, ∀ i j, mask i j &&& (1 <<< q.2) = 0)
    (hres : (∃ c, cf p.1 = Option.some c ∧ c ≠ "" ∧ lowerStr c ≠ "ignore" ∧ cv c = col) ∨
      (cf p.1 = Option.none ∧ cv (cg 0) = col) ∨
      (cf p.1 = Option.some "" ∧ cv (cg 0) = col))
    (hr : col.r ≤ 255) (hg : col.g ≤ 255) (hb : col.b ≤ 255) :
    ∀ i j, mtvMask cf cv cg alpha mask (l1 ++ p :: l2) i j =
      ⟨col.r, col.g, col.b, alphaVal alpha⟩ := by
  intro i j
  have e1 : List.foldl (planeStep cf cv cg) (initState mask) l1 = initState mask :=
    foldl_skip_of_empty cf cv cg l1 (initState mask) h1
  have hfull : ¬ (∀ i' j', isSet (initState mask) p.2 i' j' = false) := by
    intro hall
    exact hcov i j ((isSet_false_iff (initState mask) p.2 i j).mp (hall i j))
  have e2 : ∃ gi, planeStep cf cv cg (initState mask) p =
      applyColor { initState mask with genIdx := gi } p.2 col := by
    rcases hres with ⟨c, hc, hcne, hcig, hcv⟩ | ⟨hc, hcv⟩ | ⟨hc, hcv⟩
    · refine ⟨0, ?_⟩
      unfold planeStep
      rw [if_neg hfull]
      simp only [hc, if_neg hcne, if_neg hcig, hcv]
      rfl
    · refine ⟨1, ?_⟩
      unfold planeStep
      rw [if_neg hfull]
      simp only [hc]
      rw [← hcv]
      rfl
    · refine ⟨1, ?_⟩
      unfold planeStep
      rw [if_neg hfull]
      simp only [hc, if_pos rfl, if_true]
      rw [← hcv]
      rfl
  rcases e2 with ⟨gi, e2⟩
  have e3 : List.foldl (planeStep cf cv cg)
      (applyColor { initState mask with genIdx := gi } p.2 col) l2 =
      applyColor { initState mask with genIdx := gi } p.2 col :=
    foldl_skip_of_empty cf cv cg l2 _ h2
  have hrun : runPlanes cf cv cg mask (l1 ++ p :: l2) =
      applyColor { initState mask with genIdx := gi } p.2 col := by
    unfold runPlanes
    rw [List.foldl_append, e1, List.foldl_cons, e2, e3]
  have hset : isSet { initState mask with genIdx := gi } p.2 i j = true := by
    simp only [isSet, bne_iff_ne, ne_eq]
    exact hcov i j
  have hred : (applyColor { initState mask with genIdx := gi } p.2 col).red i j = col.r := by
    show (if isSet { initState mask with genIdx := gi } p.2 i j then col.r % 256 else 0) = col.r
    rw [if_pos hset]
    exact Nat.mod_eq_of_lt (by omega)
  have hgreen : (applyColor { initState mask with genIdx := gi } p.2 col).green i j = col.g := by
    show (if isSet { initState mask with genIdx := gi } p.2 i j then col.g % 256 else 0) = col.g
    rw [if_pos hset]
    exact Nat.mod_eq_of_lt (by omega)
  have hblue : (applyColor { initState mask with genIdx := gi } p.2 col).blue i j = col.b := by
    show (if isSet { initState mask with genIdx := gi } p.2 i j then col.b % 256 else 0) = col.b
    rw [if_pos hset]
    exact Nat.mod_eq_of_lt (by omega)
  have hnset : (applyColor { initState mask with genIdx := gi } p.2 col).nset i j = 1 := by
    show (if isSet { initState mask with genIdx := gi } p.2 i j then (0 + 1) % 256 else 0) = 1
    rw [if_pos hset]
  unfold mtvMask finalize
  rw [hrun, hred, hgreen, hblue, hnset]
  simp [divisorOf]

/-- Witness for C4 at a concrete input: a 1×1 mask whose pixel has
exactly bit 0 set, with plane `A` configured red, composites to
`(255, 0, 0)` with the global alpha. -/
theorem mtv_single_covering_plane_witness :
    mtvMask cfAB cvRG cgBlue (4/5) maskOne [("A", 0), ("B", 1)] 0 0 =
      ⟨255, 0, 0, alphaVal (4/5)⟩ :=
  mtv_single_covering_plane cfAB cvRG cgBlue (4/5) maskOne [] [("B", 1)] ("A", 0)
    ⟨255, 0, 0⟩ (by decide)
    (fun q hq => absurd hq (List.not_mem_nil q))
    (fun q hq => by rcases List.mem_singleton.mp hq with h; subst h; decide)
    (Or.inl ⟨"red", by decide, by decide, by decide, by decide⟩)
    (by decide) (by decide) (by decide) 0 0

/-- C1 (divergence): with planes `A` (bits 0, red `(255, 0, 0)`) and `B`
(bit 1, green `(0, 255, 0)`) both set at the only pixel of a 1×1 mask,
the compositor outputs RGB `(0, 127, 0)` — the last plane's colour
floor-divided by the contribution count — because each plane's fancy
assignment overwrites the colour channels instead of accumulating them,
while the claimed add-then-average semantics would give `(127, 127, 0)`. -/
theorem mtv_overlap_overwrites :
    ((mtvMask cfAB cvRG cgBlue (4/5) maskBoth [("A", 0), ("B", 1)] 0 0).r,
     (mtvMask cfAB cvRG cgBlue (4/5) maskBoth [("A", 0), ("B", 1)] 0 0).g,
     (mtvMask cfAB cvRG cgBlue (4/5) maskBoth [("A", 0), ("B", 1)] 0 0).b) = (0, 127, 0) := by
  decide

/-- C2 (divergence): with every plane explicitly coloured, permuting the
plane iteration order changes the final pixel: the overwrite semantics
make the composited colour depend on which overlapping plane is
processed last, contrary to the claimed order independence. -/
theorem mtv_plane_order_dependent :
    mtvMask cfAB cvRG cgBlue (4/5) maskBoth [("A", 0), ("B", 1)] 0 0 ≠
      mtvMask cfAB cvRG cgBlue (4/5) maskBoth [("B", 1), ("A", 0)] 0 0 := by
  decide

/-- C8: a region command whose first word is neither `line` nor `text`
makes the dispatch raise `RuntimeError` carrying the whole offending
command string; `line` commands whose arguments all parse become a line
draw call with every coordinate shifted by -1, and `text` commands whose
first two arguments parse become a text draw call. -/
theorem dot_unknown_command_fatal (toFloat : String → Option ℚ) (symb ctype ds9Cmd : String)
    (cmd : String) (args : List String)
    (hwords : pyWords (firstHashSegment ds9Cmd) = cmd :: args) :
    (cmd ≠ "line" → cmd ≠ "text" →
        processDs9Cmd toFloat symb ctype ds9Cmd = Except.error (DotError.runtimeError ds9Cmd)) ∧
    (∀ ps, cmd = "line" → args.mapM toFloat = Option.some ps →
        processDs9Cmd toFloat symb ctype ds9Cmd =
          Except.ok (GingaDraw.line (ps.map (fun p => p - 1)) ctype)) ∧
    (∀ x y, cmd = "text" → (args.take 2).mapM toFloat = Option.some [x, y] →
        processDs9Cmd toFloat symb ctype ds9Cmd =
          Except.ok (GingaDraw.text (x - 1) (y - 1) symb ctype)) := by
  refine ⟨?_, ?_, ?_⟩
  · intro hline htext
    unfold processDs9Cmd
    rw [hwords]
    simp only [if_neg hline, if_neg htext]
  · intro ps hcmd hargs
    subst hcmd
    unfold processDs9Cmd
    rw [hwords]
    simp only [if_pos rfl, hargs, if_true]
  · intro x y hcmd hargs
    subst hcmd
    unfold processDs9Cmd
    rw [hwords]
    have hne : ("text" : String) ≠ "line" := by decide
    simp only [if_neg hne, if_pos rfl, hargs, if_true]

/-- Witness for C8 at a concrete input: the region command
`"circle 10 10 5"` raises `RuntimeError` carrying the command text. -/
theorem dot_unknown_command_fatal_witness :
    processDs9Cmd (fun _ => Option.none) "+" "red" "circle 10 10 5" =
      Except.error (DotError.runtimeError "circle 10 10 5") :=
  (dot_unknown_command_fatal (fun _ => Option.none) "+" "red" "circle 10 10 5"
    "circle" ["10", "10", "5"] (by decide)).1 (by decide) (by decide)

/-- C10 (divergence): naming a maskplane does not make the transparency
setter warn and return — the specifier-free format string makes the call
raise `TypeError` before printing, for every transparency value, leaving
the stored state unchanged only by never reaching the assignment; with
maskplane `None` the setter returns normally after storing
`0.01 * transparency`, so the getter then reads the transparency divided
by 100. -/
theorem maskTransparency_typeError (s : GingaState) (t : ℚ) :
    (∀ p : String, setMaskTransparency s t (Option.some p) = Except.error PyError.typeError) ∧
    Except.map (fun r => getMaskTransparency r.1 Option.none)
      (setMaskTransparency s t Option.none) = Except.ok (t / 100) := by
  refine ⟨fun p => rfl, ?_⟩
  show Except.ok ((0.01 : ℚ) * t) = Except.ok (t / 100)
  norm_num
  ring

end DisplayGinga
